import Mathlib

/-!
Verification of the AUSCrawl course-data crawler (`src/crawl.js`).

The development shallowly embeds the crawler's extraction-and-persistence
pipeline:

* JavaScript string primitives (`split`, `includes`, `trim`, `parseInt`,
  and the two scraping regexes) are modelled over `List Char`;
* the per-header record extraction performed inside the `page.$$eval('th a')
  callback (crawl.js lines 88-195) becomes `extractOne` / `totalResults`;
* the per-term database phase (subject upserts, crawl.js lines 43-65, and the
  persistence loop, lines 197-267) becomes `subjectPhase` / `persistLoop` /
  `crawl`, acting on an explicit relational state `DB`;
* the orchestrator loop of `startCrawl` (lines 398-413) becomes
  `startCrawlLoop` / `startCrawlExit`.

JavaScript exceptions (member access on `undefined`/`null`) are modelled with
`Except JsError`; a plain `undefined` value that merely flows into a field is
modelled as `Option.none`.
-/

/-- Strings are modelled as character lists so that all operations reduce in
the kernel. -/
abbrev JStr := List Char

/-- A JavaScript runtime error (the only kind the embedded code can raise is a
`TypeError` from member access on `undefined`/`null`). -/
inductive JsError where
  | typeError : JsError
  deriving Repr, DecidableEq

/-- Fuel-driven worker for `split` with a non-empty separator `c0 :: sep'`.
The fuel is the length of the scanned list, which suffices because every
recursive call scans a strictly shorter list. -/
def splitLoop (c0 : Char) (sep' : JStr) : Nat → JStr → List JStr
  | _, [] => [[]]
  | 0, l => [l]
  | fuel + 1, c :: cs =>
    if (c0 :: sep').isPrefixOf (c :: cs) then
      [] :: splitLoop c0 sep' fuel (cs.drop sep'.length)
    else
      match splitLoop c0 sep' fuel cs with
      | [] => [[c]]
      | t :: ts => (c :: t) :: ts

/-- JavaScript `s.split(sep)` for a string separator: leftmost,
non-overlapping occurrences of `sep` delimit the fields; the empty separator
splits into single characters. -/
def jsSplit (sep : String) (s : JStr) : List JStr :=
  match sep.toList with
  | [] => s.map (fun c => [c])
  | c :: cs => splitLoop c cs s.length s

/-- Substring occurrence test: `sub` is a prefix of some suffix of the
scanned list. -/
def containsSub (sub : JStr) : JStr → Bool
  | [] => sub.isEmpty
  | c :: cs => sub.isPrefixOf (c :: cs) || containsSub sub cs

/-- JavaScript `s.includes(sub)`: substring containment. -/
def jsIncludes (s : JStr) (sub : JStr) : Bool :=
  containsSub sub s

/-- JavaScript `s.trim()` (whitespace in the crawler's data is ASCII). -/
def jsTrim (s : JStr) : JStr :=
  ((s.dropWhile Char.isWhitespace).reverse.dropWhile Char.isWhitespace).reverse

/-- Decimal digit run folded into a number; `none` when no leading digit
exists. -/
def parseDigits (s : JStr) : Option Nat :=
  match s.takeWhile Char.isDigit with
  | [] => none
  | ds => some (ds.foldl (fun a c => a * 10 + (c.toNat - 48)) 0)

/-- JavaScript `parseInt(s)` restricted to decimal inputs (the crawler only
feeds it credit-hour texts such as `"3.000"`): optional sign, then leading
digits; no digits means `NaN`, modelled as `none`. -/
def jsParseInt (s : JStr) : Option Int :=
  match s.dropWhile Char.isWhitespace with
  | '-' :: rest => (parseDigits rest).map (fun n => -(n : Int))
  | '+' :: rest => (parseDigits rest).map (fun n => (n : Int))
  | s1 => (parseDigits s1).map (fun n => (n : Int))

/-- `x || null` on a string value: the empty string is falsy. -/
def jsOrNullStr (s : JStr) : Option JStr :=
  if s = [] then none else some s

/-- `x || null` on a number: `NaN` and `0` (also `-0`) are falsy. -/
def jsOrNullInt : Option Int → Option Int
  | none => none
  | some 0 => none
  | some n => some n

/-- Truthiness of a string-or-undefined value (`undefined` and `""` are
falsy). -/
def jsTruthyStrOpt : Option JStr → Bool
  | none => false
  | some [] => false
  | some (_ :: _) => true

/-- Template-literal rendering of a possibly-`undefined` value
(`undefined` prints as the string "undefined"). -/
def jsTemplOpt : Option JStr → JStr
  | some s => s
  | none => "undefined".toList

/-- First match of the regex `/(?<=LABEL).*/g`: the text following the first
occurrence of `LABEL`, up to the end of its line (`.` does not match a
newline); `none` when the label never occurs. -/
def matchAfterFirst (label : JStr) : JStr → Option JStr
  | [] => none
  | c :: cs =>
    if label.isPrefixOf (c :: cs) then
      some (((c :: cs).drop label.length).takeWhile (fun ch => ch ≠ '\n'))
    else
      matchAfterFirst label cs

/-- Lazy attempt of `/.+?(?=SUF)/` anchored at the current position: the
shortest non-empty run of non-newline characters followed by `SUF`. -/
def tryLazyBefore (suf : JStr) : JStr → Option JStr
  | [] => none
  | c :: cs =>
    if c = '\n' then none
    else if suf.isPrefixOf cs then some [c]
    else (tryLazyBefore suf cs).map (fun t => c :: t)

/-- First match of the regex `/.+?(?=SUF)/g`: tried at each start position
from the left, taking the first position where the lazy match succeeds. -/
def matchBeforeFirst (suf : JStr) : JStr → Option JStr
  | [] => none
  | c :: cs =>
    match tryLazyBefore suf (c :: cs) with
    | some m => some m
    | none => matchBeforeFirst suf cs

/-- `new Date(s).toString()` is not modelled beyond being a total function of
its argument; no claim inspects the rendered value, only its presence. -/
def jsDateToString (s : JStr) : JStr := s

/-- One extracted course record (the `info` object of crawl.js lines 99-186).
String-valued JavaScript fields that may hold `undefined` or `null` are
`Option JStr`. -/
structure CrnInfo where
  crn : Option JStr
  subject : Option JStr
  classTitle : Option JStr
  classShortName : Option JStr
  classNumber : Option JStr
  classSection : Option JStr
  classType : Option JStr
  isLab : Option Bool
  instructor : Option JStr
  startTime : Option JStr
  endTime : Option JStr
  isSunday : Bool
  isMonday : Bool
  isTuesday : Bool
  isWednesday : Bool
  isThursday : Bool
  levels : Option JStr
  attributes : Option JStr
  scheduleType : Option JStr
  credits : Option Int
  classroom : Option JStr
  seatsAvailable : Option Bool
  deriving Repr, DecidableEq

/-- The instructor record pushed for every course that has a data table
(crawl.js lines 151-155). -/
structure InstructorInfo where
  name : JStr
  email : JStr
  deriving Repr, DecidableEq

/-- The detail-block data table of one listing: the `innerText` of each `td`
in document order, and the `href` of the first `td a` element if any. -/
structure ClassTable where
  tds : List JStr
  mailHref : Option JStr
  deriving Repr, DecidableEq

/-- One header/detail pair of the raw listing document: the `innerText` of the
`th a` header link, the `innerText` of the following detail block, and its
data table when present. -/
structure Header where
  headerText : JStr
  descriptionText : JStr
  classTable : Option ClassTable
  deriving Repr, DecidableEq

/-- The value returned by the `page.$$eval('th a', ...)` callback
(crawl.js lines 88-195). -/
structure ExtractResult where
  crnInfo : List CrnInfo
  instructorInfo : List InstructorInfo
  deriving Repr, DecidableEq

/-- Member access that throws a `TypeError` when the value is `undefined`. -/
def req {α : Type} (o : Option α) : Except JsError α :=
  match o with
  | some a => Except.ok a
  | none => Except.error JsError.typeError

/-- The re-mapped field assignment shared by both 5-token irregularity paths
(crawl.js lines 173-178 and 180-185).  `crnTitle[3].split(' ')` throws when
token 3 is absent. -/
def doRemap (tok : List JStr) (info : CrnInfo) : Except JsError CrnInfo :=
  match tok.get? 3 with
  | none => Except.error JsError.typeError
  | some t3 =>
    Except.ok { info with
      crn := tok.get? 2
      subject := (jsSplit " " t3).get? 0
      classNumber := (jsSplit " " t3).get? 1
      classTitle := some (jsTemplOpt (tok.get? 0) ++ ' ' :: jsTemplOpt (tok.get? 1))
      classShortName := some t3
      classSection := tok.get? 4 }

/-- The special-case correction of crawl.js lines 172-186: a 5-token header
whose second token contains "Lab", or any header whose second token contains
"Targeted eLipo" (the second guard has no length check), is re-mapped.
Reading `crnTitle[1]` in the second guard throws when the token is absent. -/
def applyRemap (tok : List JStr) (info : CrnInfo) : Except JsError CrnInfo :=
  if tok.length = 5 && jsIncludes (tok.getD 1 []) ("Lab".toList) then
    doRemap tok info
  else
    match tok.get? 1 with
    | none => Except.error JsError.typeError
    | some t1 =>
      if jsIncludes t1 ("Targeted eLipo".toList) then doRemap tok info
      else Except.ok info

/-- crawl.js lines 188-190: the attributes field is set only when the
`Attributes: ` pattern matches (no `|| null`, so an empty match is kept). -/
def applyAttributes (desc : JStr) (info : CrnInfo) : CrnInfo :=
  match matchAfterFirst ("Attributes: ".toList) desc with
  | some m => { info with attributes := some m }
  | none => info

/-- The day-flag cascade of crawl.js lines 157-168: first-match precedence
over the letters U, M, T, W, R; at most one flag is ever set. -/
def setDayFlags (days : JStr) (info : CrnInfo) : CrnInfo :=
  if jsIncludes days ("U".toList) then { info with isSunday := true }
  else if jsIncludes days ("M".toList) then { info with isMonday := true }
  else if jsIncludes days ("T".toList) then { info with isTuesday := true }
  else if jsIncludes days ("W".toList) then { info with isWednesday := true }
  else if jsIncludes days ("R".toList) then { info with isThursday := true }
  else info

/-- The record built for a listing with no data table (crawl.js lines
100-124): only the fields derivable from the header tokens and the
description free text are set; every schedule-dependent field is
`null`/`false`. -/
def baseNoTable (tok : List JStr) (subj2 : JStr)
    (lv : Option JStr) (sch : Option JStr) (cr : Option Int) : CrnInfo where
  crn := tok.get? 1
  subject := (jsSplit " " subj2).get? 0
  classTitle := tok.get? 0
  classShortName := tok.get? 2
  classNumber := (jsSplit " " subj2).get? 1
  classSection := tok.get? 3
  classType := none
  isLab := none
  instructor := none
  startTime := none
  endTime := none
  isSunday := false
  isMonday := false
  isTuesday := false
  isWednesday := false
  isThursday := false
  levels := lv
  attributes := none
  scheduleType := sch
  credits := cr
  classroom := none
  seatsAvailable := none

/-- The record built for a listing with a data table (crawl.js lines
126-149), before the day flags, the 5-token remap and the attributes
assignment are applied. -/
def baseTable (tok : List JStr) (subj2 td6 td7 td1 td4 td3 : JStr)
    (lv : Option JStr) (sch : Option JStr) (cr : Option Int) : CrnInfo where
  crn := tok.get? 1
  subject := (jsSplit " " subj2).get? 0
  classTitle := tok.get? 0
  classShortName := tok.get? 2
  classNumber := (jsSplit " " subj2).get? 1
  classSection := tok.get? 3
  classType := some td6
  isLab := some (decide (tok.length = 5) || td6 == "Lab".toList)
  instructor := (jsSplit "(P)" td7).get? 0
  startTime := some (jsDateToString ("0, ".toList ++ jsTemplOpt ((jsSplit " - " td1).get? 0)))
  endTime := some (jsDateToString ("0, ".toList ++ jsTemplOpt ((jsSplit " - " td1).get? 1)))
  isSunday := false
  isMonday := false
  isTuesday := false
  isWednesday := false
  isThursday := false
  levels := lv
  attributes := none
  scheduleType := sch
  credits := cr
  classroom := some td4
  seatsAvailable := some (td3 == "Y".toList)

/-- crawl.js line 153: the instructor email is the sentinel "none" for a
"TBA" instructor or when the table has no mail link; otherwise the part of
the link target after "mailto:", trimmed (`[1].trim()` throws when the href
contains no "mailto:"). -/
def emailOf (instr : Option JStr) (mailHref : Option JStr) : Except JsError JStr :=
  if instr == some ("TBA".toList) then Except.ok ("none".toList)
  else
    match mailHref with
    | none => Except.ok ("none".toList)
    | some href =>
      match (jsSplit "mailto:" href).get? 1 with
      | none => Except.error JsError.typeError
      | some e => Except.ok (jsTrim e)

/-- The free-text `levels` value (crawl.js line 118/143):
`match(/(?<=Levels: ).*/g)[0] || null`.  A missing label makes the `match`
call return `null`, so the `[0]` access throws. -/
def levelsVal (desc : JStr) : Except JsError (Option JStr) :=
  match matchAfterFirst ("Levels: ".toList) desc with
  | none => Except.error JsError.typeError
  | some m => Except.ok (jsOrNullStr m)

/-- The free-text `scheduleType` value (crawl.js line 120/145):
`match(/.+?(?= Schedule)/g)[0] || null`; throws when no match exists. -/
def scheduleTypeVal (desc : JStr) : Except JsError (Option JStr) :=
  match matchBeforeFirst (" Schedule".toList) desc with
  | none => Except.error JsError.typeError
  | some m => Except.ok (jsOrNullStr m)

/-- The free-text `credits` value (crawl.js line 121/146):
`parseInt(match(/.+?(?= Credits)/g)[0]) || null`; throws when no match
exists, and an unparsable or zero credit value becomes `null`. -/
def creditsVal (desc : JStr) : Except JsError (Option Int) :=
  match matchBeforeFirst (" Credits".toList) desc with
  | none => Except.error JsError.typeError
  | some m => Except.ok (jsOrNullInt (jsParseInt m))

/-- Extraction of one header whose detail block has no data table
(crawl.js lines 100-124 plus the shared lines 172-192). -/
def extractNoTable (tok : List JStr) (desc : JStr) : Except JsError CrnInfo :=
  match tok.get? 2 with
  | none => Except.error JsError.typeError
  | some subj2 =>
  match levelsVal desc with
  | Except.error e => Except.error e
  | Except.ok lv =>
  match scheduleTypeVal desc with
  | Except.error e => Except.error e
  | Except.ok sch =>
  match creditsVal desc with
  | Except.error e => Except.error e
  | Except.ok cr =>
  (applyRemap tok (baseNoTable tok subj2 lv sch cr)).map (applyAttributes desc)

/-- Extraction of one header whose detail block has a data table
(crawl.js lines 126-168 plus the shared lines 172-192), also producing the
instructor record of lines 151-155. -/
def extractTable (tok : List JStr) (desc : JStr) (ct : ClassTable) :
    Except JsError (CrnInfo × InstructorInfo) :=
  match tok.get? 2 with
  | none => Except.error JsError.typeError
  | some subj2 =>
  match ct.tds.get? 6 with
  | none => Except.error JsError.typeError
  | some td6 =>
  match ct.tds.get? 7 with
  | none => Except.error JsError.typeError
  | some td7 =>
  match ct.tds.get? 1 with
  | none => Except.error JsError.typeError
  | some td1 =>
  match levelsVal desc with
  | Except.error e => Except.error e
  | Except.ok lv =>
  match scheduleTypeVal desc with
  | Except.error e => Except.error e
  | Except.ok sch =>
  match creditsVal desc with
  | Except.error e => Except.error e
  | Except.ok cr =>
  match ct.tds.get? 4 with
  | none => Except.error JsError.typeError
  | some td4 =>
  match ct.tds.get? 3 with
  | none => Except.error JsError.typeError
  | some td3 =>
  match emailOf ((jsSplit "(P)" td7).get? 0) ct.mailHref with
  | Except.error e => Except.error e
  | Except.ok email =>
  match ct.tds.get? 2 with
  | none => Except.error JsError.typeError
  | some td2 =>
  (applyRemap tok (setDayFlags td2 (baseTable tok subj2 td6 td7 td1 td4 td3 lv sch cr))).map
    (fun i =>
      (applyAttributes desc i, ⟨jsTrim ((jsSplit "(P)" td7).getD 0 []), email⟩))

/-- One iteration of the `$$eval` loop (crawl.js lines 94-193): the header
text is split on " - ", and the branch is chosen by the presence of a data
table.  A listing without a data table contributes no instructor record. -/
def extractOne (h : Header) : Except JsError (CrnInfo × Option InstructorInfo) :=
  match h.classTable with
  | none =>
    match extractNoTable (jsSplit " - " h.headerText) h.descriptionText with
    | Except.error e => Except.error e
    | Except.ok info => Except.ok (info, none)
  | some ct =>
    match extractTable (jsSplit " - " h.headerText) h.descriptionText ct with
    | Except.error e => Except.error e
    | Except.ok (info, inst) => Except.ok (info, some inst)

/-- The full `$$eval` callback (crawl.js lines 88-195): both result arrays are
filled by `push` in document order; `crnInfo` receives one record per header,
`instructorInfo` only receives records for headers with a data table. -/
def totalResults : List Header → Except JsError ExtractResult
  | [] => Except.ok ⟨[], []⟩
  | h :: hs =>
    match extractOne h with
    | Except.error e => Except.error e
    | Except.ok (info, instOpt) =>
      match totalResults hs with
      | Except.error e => Except.error e
      | Except.ok rest =>
        Except.ok ⟨info :: rest.crnInfo,
          match instOpt with
          | some ii => ii :: rest.instructorInfo
          | none => rest.instructorInfo⟩

/-- A row of the `subjects` table (crawl.js lines 315-324; the auto-increment
id plays no role in the claims). -/
structure SubjectRow where
  shortName : JStr
  longName : JStr
  firstSeen : JStr
  deriving Repr, DecidableEq

/-- A row of the `instructors` table (crawl.js lines 304-313). -/
structure InstructorRow where
  name : JStr
  email : JStr
  firstSeen : JStr
  deriving Repr, DecidableEq

/-- A row of the `levels` table (crawl.js lines 326-334). -/
structure LevelRow where
  level : JStr
  firstSeen : JStr
  deriving Repr, DecidableEq

/-- A row of the `attributes` table (crawl.js lines 336-344; the source
column is called `attribute`, which is a reserved word here). -/
structure AttributeRow where
  attrText : JStr
  firstSeen : JStr
  deriving Repr, DecidableEq

/-- A row of the `crns` table (crawl.js lines 273-302): the extracted record
plus the term stamp added at line 265. -/
structure CrnRow where
  info : CrnInfo
  termID : JStr
  deriving Repr, DecidableEq

/-- The relational store. -/
structure DB where
  subjects : List SubjectRow
  instructors : List InstructorRow
  levels : List LevelRow
  attributes : List AttributeRow
  crns : List CrnRow
  deriving Repr, DecidableEq

/-- The store before any crawling. -/
def emptyDB : DB := ⟨[], [], [], [], []⟩

/-- Sequelize `findOrCreate`: look the natural key up with `keyOf`; on a hit
return the table unchanged (`isNewRecord = false`), on a miss append the
`defaults` row `mk` (`isNewRecord = true`). -/
def focBy {ρ : Type} (keyOf : ρ → JStr) (k : JStr) (mk : ρ) (rows : List ρ) :
    List ρ × Bool :=
  match rows.find? (fun r => keyOf r == k) with
  | some _ => (rows, false)
  | none => (rows ++ [mk], true)

/-- A run of `findOrCreate` calls over a list of keys, counting the inserted
rows (the `for` loops of crawl.js lines 221-238 and 243-259). -/
def upsertAll {ρ : Type} (keyOf : ρ → JStr) (mk : JStr → ρ) :
    List JStr → List ρ → Nat → List ρ × Nat
  | [], rows, n => (rows, n)
  | k :: ks, rows, n =>
    match focBy keyOf k (mk k) rows with
    | (rows', isNew) => upsertAll keyOf mk ks rows' (if isNew then n + 1 else n)

/-- The subject upsert loop (crawl.js lines 43-65): one `findOrCreate` keyed
by `shortName` per (longName, shortName) pair, counting new rows.  The source
loops the index over the long-name lines and reads the short-name array at
the same index, which for the equal-length inputs produced by the subject
page is the zip of the two sequences. -/
def subjectPhase (termID : JStr) : List (JStr × JStr) → DB → Nat → DB × Nat
  | [], db, n => (db, n)
  | (ln, sn) :: rest, db, n =>
    match focBy SubjectRow.shortName sn ⟨sn, ln, termID⟩ db.subjects with
    | (rows, isNew) =>
      subjectPhase termID rest { db with subjects := rows }
        (if isNew then n + 1 else n)

/-- The per-run statistics counters declared at crawl.js line 10 and reported
at line 269. -/
structure Stats where
  newSubjectCount : Nat
  newInstructorCount : Nat
  newLevelCount : Nat
  newAttributeCount : Nat
  deriving Repr, DecidableEq

/-- The instructor upsert of one loop iteration (crawl.js lines 199-216):
`findOrCreate` keyed by name, guarded on an instructor record being present
at the current index. -/
def instUpsert (termID : JStr) (instOpt : Option InstructorInfo)
    (rows : List InstructorRow) : List InstructorRow × Bool :=
  match instOpt with
  | some ii => focBy InstructorRow.name ii.name ⟨ii.name, ii.email, termID⟩ rows
  | none => (rows, false)

/-- The attribute upserts of one loop iteration (crawl.js lines 219-239):
guarded on a truthy attributes field, split on ", ". -/
def attrUpsert (termID : JStr) (info : CrnInfo)
    (rows : List AttributeRow) : List AttributeRow × Nat :=
  if jsTruthyStrOpt info.attributes then
    upsertAll AttributeRow.attrText (fun k => ⟨k, termID⟩)
      (jsSplit ", " (info.attributes.getD [])) rows 0
  else (rows, 0)

/-- The level upserts of one loop iteration (crawl.js lines 241-260):
guarded on a truthy levels field, split on ", ". -/
def lvlUpsert (termID : JStr) (info : CrnInfo)
    (rows : List LevelRow) : List LevelRow × Nat :=
  if jsTruthyStrOpt info.levels then
    upsertAll LevelRow.level (fun k => ⟨k, termID⟩)
      (jsSplit ", " (info.levels.getD [])) rows 0
  else (rows, 0)

/-- Persistence of one course record (one iteration of the loop at crawl.js
lines 197-267): instructor `findOrCreate` keyed by name when an instructor
record exists at this index, then attribute upserts, then level upserts, then
a blind append to `crns`.  The counter update mirrors the source exactly:
crawl.js line 257 increments `newAttributeCount` for each new level row, and
`newLevelCount` is never incremented anywhere in the source. -/
def persistCourse (termID : JStr) (info : CrnInfo) (instOpt : Option InstructorInfo)
    (db : DB) (st : Stats) : DB × Stats :=
  let instStep := instUpsert termID instOpt db.instructors
  let attrStep := attrUpsert termID info db.attributes
  let lvlStep := lvlUpsert termID info db.levels
  ({ db with instructors := instStep.1, attributes := attrStep.1,
             levels := lvlStep.1, crns := db.crns ++ [⟨info, termID⟩] },
   { st with
      newInstructorCount := st.newInstructorCount + (if instStep.2 then 1 else 0),
      newAttributeCount := st.newAttributeCount + attrStep.2 + lvlStep.2 })

/-- The persistence loop (crawl.js lines 197-267): the loop index `i` ranges
over `crnInfo`, and the instructor array is read at the same index `i`. -/
def persistLoop (termID : JStr) (insts : List InstructorInfo) :
    List CrnInfo → Nat → DB → Stats → DB × Stats
  | [], _, db, st => (db, st)
  | info :: rest, i, db, st =>
    match persistCourse termID info (insts.get? i) db st with
    | (db', st') => persistLoop termID insts rest (i + 1) db' st'

/-- The scraped inputs of one term: the subject selector contents and the
header/detail pairs of the listing page. -/
structure TermInput where
  subjectPairs : List (JStr × JStr)
  headers : List Header
  deriving Repr, DecidableEq

/-- One run of `crawl` for a term (crawl.js lines 8-270), given the scraped
inputs: subjects are upserted first, then the listing is extracted, then the
extracted batch is persisted.  An extraction exception propagates out of
`crawl`; the subject rows upserted before the exception are already committed
to the store, so the state is carried alongside the outcome. -/
def crawl (termID : JStr) (inp : TermInput) (db : DB) : DB × Except JsError Stats :=
  let p1 := subjectPhase termID inp.subjectPairs db 0
  match totalResults inp.headers with
  | Except.error e => (p1.1, Except.error e)
  | Except.ok res =>
    let p2 := persistLoop termID res.instructorInfo res.crnInfo 0 p1.1 ⟨p1.2, 0, 0, 0⟩
    (p2.1, Except.ok p2.2)

/-- The per-term loop of `startCrawl` (crawl.js lines 398-403): the `.catch`
handler attached to each `crawl` call rethrows, so a failed term aborts the
loop; the store keeps everything committed up to the failure. -/
def startCrawlLoop (db : DB) : List (JStr × TermInput) → DB × Option JsError
  | [] => (db, none)
  | (t, inp) :: rest =>
    match crawl t inp db with
    | (db', Except.error e) => (db', some e)
    | (db', Except.ok _) => startCrawlLoop db' rest

/-- The process outcome of `startCrawl` (crawl.js lines 405-413): a completed
loop exits with code 0, any uncaught error reaches the top-level catch and
exits with code 1. -/
def startCrawlExit (db : DB) (terms : List (JStr × TermInput)) : Nat :=
  match (startCrawlLoop db terms).2 with
  | none => 0
  | some _ => 1

/-! ### Keyed-table lemmas

The four reference tables share the `findOrCreate` shape of `focBy`; the
following lemmas characterise lookup-or-insert over an arbitrary key
projection. -/

/-- A natural key is present in a table. -/
def hasKey {ρ : Type} (keyOf : ρ → JStr) (k : JStr) (rows : List ρ) : Bool :=
  (rows.find? (fun r => keyOf r == k)).isSome

/-- The rows of a table carrying a given natural key. -/
def kfilter {ρ : Type} (keyOf : ρ → JStr) (k : JStr) (rows : List ρ) : List ρ :=
  rows.filter (fun r => keyOf r == k)

theorem find?_append_first {α : Type} {p : α → Bool} {l₁ l₂ : List α}
    (h : (l₁.find? p).isSome) : (l₁ ++ l₂).find? p = l₁.find? p := by
  induction l₁ with
  | nil => simp [List.find?] at h
  | cons a l ih =>
    by_cases hpa : p a
    · simp [List.find?_cons_of_pos _ hpa]
    · rw [List.find?_cons_of_neg _ hpa] at h
      simp only [List.cons_append, List.find?_cons_of_neg _ hpa]
      exact ih h

theorem find?_append_second {α : Type} {p : α → Bool} {l₁ l₂ : List α}
    (h : l₁.find? p = none) : (l₁ ++ l₂).find? p = l₂.find? p := by
  induction l₁ with
  | nil => simp
  | cons a l ih =>
    by_cases hpa : p a
    · simp [List.find?_cons_of_pos _ hpa] at h
    · rw [List.find?_cons_of_neg _ hpa] at h
      simp only [List.cons_append, List.find?_cons_of_neg _ hpa]
      exact ih h

theorem kfilter_eq_nil_of_not_hasKey {ρ : Type} {keyOf : ρ → JStr} {k : JStr}
    {rows : List ρ} (h : hasKey keyOf k rows = false) :
    kfilter keyOf k rows = [] := by
  unfold hasKey at h
  unfold kfilter
  rw [List.filter_eq_nil_iff]
  intro r hr
  cases hfind : rows.find? (fun r => keyOf r == k) with
  | some r' => rw [hfind] at h; simp at h
  | none =>
    have := List.find?_eq_none.mp hfind r hr
    simpa using this

theorem focBy_of_hasKey {ρ : Type} {keyOf : ρ → JStr} {k : JStr} {mk : ρ}
    {rows : List ρ} (h : hasKey keyOf k rows = true) :
    focBy keyOf k mk rows = (rows, false) := by
  unfold hasKey at h
  unfold focBy
  cases hfind : rows.find? (fun r => keyOf r == k) with
  | some r => rfl
  | none => rw [hfind] at h; simp at h

theorem hasKey_focBy_self {ρ : Type} {keyOf : ρ → JStr} {k : JStr} {mk : ρ}
    {rows : List ρ} (hmk : keyOf mk = k) :
    hasKey keyOf k (focBy keyOf k mk rows).1 = true := by
  unfold focBy
  cases hfind : rows.find? (fun r => keyOf r == k) with
  | some r => simpa [hasKey] using congrArg Option.isSome hfind
  | none =>
    unfold hasKey
    rw [find?_append_second hfind]
    simp [List.find?, hmk]

theorem hasKey_focBy_mono {ρ : Type} {keyOf : ρ → JStr} {c k : JStr} {mk : ρ}
    {rows : List ρ} (h : hasKey keyOf c rows = true) :
    hasKey keyOf c (focBy keyOf k mk rows).1 = true := by
  unfold focBy
  cases hfind : rows.find? (fun r => keyOf r == k) with
  | some r => exact h
  | none =>
    unfold hasKey at h ⊢
    rw [find?_append_first h]
    exact h

theorem hasKey_focBy_of_ne {ρ : Type} {keyOf : ρ → JStr} {c k : JStr} {mk : ρ}
    {rows : List ρ} (hmk : keyOf mk = k) (hne : k ≠ c) :
    hasKey keyOf c (focBy keyOf k mk rows).1 = hasKey keyOf c rows := by
  unfold focBy
  cases hfind : rows.find? (fun r => keyOf r == k) with
  | some r => rfl
  | none =>
    unfold hasKey
    cases hc : rows.find? (fun r => keyOf r == c) with
    | some r => rw [find?_append_first (by simp [hc])]; rw [hc]
    | none =>
      rw [find?_append_second hc]
      have hkc : (keyOf mk == c) = false := by
        rw [hmk]
        exact beq_eq_false_iff_ne.mpr hne
      simp [List.find?, hkc]

theorem kfilter_focBy {ρ : Type} {keyOf : ρ → JStr} {c k : JStr} {mk : ρ}
    {rows : List ρ} (hmk : keyOf mk = k) (h : hasKey keyOf c rows = true) :
    kfilter keyOf c (focBy keyOf k mk rows).1 = kfilter keyOf c rows := by
  unfold focBy
  cases hfind : rows.find? (fun r => keyOf r == k) with
  | some r => rfl
  | none =>
    unfold kfilter
    rw [List.filter_append]
    have hkc : ¬ (keyOf mk == c) = true := by
      intro hbeq
      have : k = c := by rw [← hmk]; exact eq_of_beq hbeq
      subst this
      unfold hasKey at h
      rw [hfind] at h
      simp at h
    simp [List.filter, hkc]

theorem find?_eq_none_of_not_hasKey {ρ : Type} {keyOf : ρ → JStr} {k : JStr}
    {rows : List ρ} (h : hasKey keyOf k rows = false) :
    rows.find? (fun r => keyOf r == k) = none := by
  unfold hasKey at h
  cases hfind : rows.find? (fun r => keyOf r == k) with
  | some r => rw [hfind] at h; simp at h
  | none => rfl

theorem upsertAll_of_allKeys {ρ : Type} {keyOf : ρ → JStr} {mk : JStr → ρ}
    {ks : List JStr} {rows : List ρ} {n : Nat}
    (hks : ∀ k ∈ ks, hasKey keyOf k rows = true) :
    upsertAll keyOf mk ks rows n = (rows, n) := by
  induction ks with
  | nil => rfl
  | cons k ks ih =>
    unfold upsertAll
    rw [focBy_of_hasKey (hks k (List.mem_cons_self k ks))]
    exact ih (fun k' hk' => hks k' (List.mem_cons_of_mem _ hk'))

theorem hasKey_upsertAll_mono {ρ : Type} {keyOf : ρ → JStr} {mk : JStr → ρ}
    {c : JStr} : ∀ {ks : List JStr} {rows : List ρ} {n : Nat},
    hasKey keyOf c rows = true →
    hasKey keyOf c (upsertAll keyOf mk ks rows n).1 = true := by
  intro ks
  induction ks with
  | nil => intro rows n h; exact h
  | cons k ks ih =>
    intro rows n h
    unfold upsertAll
    exact ih (hasKey_focBy_mono h)

theorem hasKey_upsertAll_self {ρ : Type} {keyOf : ρ → JStr} {mk : JStr → ρ}
    (hmk : ∀ k, keyOf (mk k) = k) :
    ∀ {ks : List JStr} {rows : List ρ} {n : Nat} (k : JStr), k ∈ ks →
    hasKey keyOf k (upsertAll keyOf mk ks rows n).1 = true := by
  intro ks
  induction ks with
  | nil => intro rows n k hk; simp at hk
  | cons k' ks ih =>
    intro rows n k hk
    unfold upsertAll
    rcases List.mem_cons.mp hk with h | h
    · subst h
      exact hasKey_upsertAll_mono (hasKey_focBy_self (hmk k))
    · exact ih k h

/-! ### Subject-phase lemmas -/

theorem subjectPhase_frame {t : JStr} : ∀ {ps : List (JStr × JStr)} {db : DB} {n : Nat},
    (subjectPhase t ps db n).1.instructors = db.instructors ∧
    (subjectPhase t ps db n).1.levels = db.levels ∧
    (subjectPhase t ps db n).1.attributes = db.attributes ∧
    (subjectPhase t ps db n).1.crns = db.crns := by
  intro ps
  induction ps with
  | nil => intro db n; exact ⟨rfl, rfl, rfl, rfl⟩
  | cons p ps ih =>
    intro db n
    cases p with
    | mk ln sn => exact ih

theorem subjectPhase_stable {t : JStr} : ∀ {ps : List (JStr × JStr)} {db : DB} {n : Nat},
    (∀ p ∈ ps, hasKey SubjectRow.shortName p.2 db.subjects = true) →
    subjectPhase t ps db n = (db, n) := by
  intro ps
  induction ps with
  | nil => intro db n _; rfl
  | cons p ps ih =>
    intro db n hps
    cases p with
    | mk ln sn =>
      unfold subjectPhase
      rw [focBy_of_hasKey (hps (ln, sn) (List.mem_cons_self _ _))]
      exact ih (fun p' hp' => hps p' (List.mem_cons_of_mem _ hp'))

theorem hasKey_subjectPhase_mono {t c : JStr} : ∀ {ps : List (JStr × JStr)} {db : DB} {n : Nat},
    hasKey SubjectRow.shortName c db.subjects = true →
    hasKey SubjectRow.shortName c (subjectPhase t ps db n).1.subjects = true := by
  intro ps
  induction ps with
  | nil => intro db n h; exact h
  | cons p ps ih =>
    intro db n h
    cases p with
    | mk ln sn =>
      unfold subjectPhase
      exact ih (hasKey_focBy_mono h)

theorem hasKey_subjectPhase_self {t : JStr} : ∀ {ps : List (JStr × JStr)} {db : DB} {n : Nat},
    ∀ p ∈ ps, hasKey SubjectRow.shortName p.2 (subjectPhase t ps db n).1.subjects = true := by
  intro ps
  induction ps with
  | nil => intro db n p hp; simp at hp
  | cons q ps ih =>
    intro db n p hp
    cases q with
    | mk ln sn =>
      unfold subjectPhase
      rcases List.mem_cons.mp hp with h | h
      · subst h
        exact hasKey_subjectPhase_mono (hasKey_focBy_self rfl)
      · exact ih p h

theorem kfilter_subjectPhase {t c : JStr} : ∀ {ps : List (JStr × JStr)} {db : DB} {n : Nat},
    hasKey SubjectRow.shortName c db.subjects = true →
    kfilter SubjectRow.shortName c (subjectPhase t ps db n).1.subjects
      = kfilter SubjectRow.shortName c db.subjects := by
  intro ps
  induction ps with
  | nil => intro db n _; rfl
  | cons p ps ih =>
    intro db n h
    cases p with
    | mk ln sn =>
      unfold subjectPhase
      rw [ih (hasKey_focBy_mono h)]
      exact kfilter_focBy rfl h

theorem subjectPhase_insert {t c : JStr} : ∀ {ps : List (JStr × JStr)} {db : DB} {n : Nat},
    hasKey SubjectRow.shortName c db.subjects = false →
    c ∈ ps.map Prod.snd →
    ∃ ln0, kfilter SubjectRow.shortName c (subjectPhase t ps db n).1.subjects
      = [⟨c, ln0, t⟩] := by
  intro ps
  induction ps with
  | nil => intro db n _ hc; simp at hc
  | cons p ps ih =>
    intro db n h hc
    cases p with
    | mk ln sn =>
      by_cases hsn : sn = c
      · subst hsn
        unfold subjectPhase
        have hf := find?_eq_none_of_not_hasKey h
        have hfoc : focBy SubjectRow.shortName sn ⟨sn, ln, t⟩ db.subjects
            = (db.subjects ++ [⟨sn, ln, t⟩], true) := by
          unfold focBy
          rw [hf]
        rw [hfoc]
        refine ⟨ln, ?_⟩
        have h1 : hasKey SubjectRow.shortName sn
            (db.subjects ++ [(⟨sn, ln, t⟩ : SubjectRow)]) = true := by
          have h2 := @hasKey_focBy_self SubjectRow SubjectRow.shortName sn
            ⟨sn, ln, t⟩ db.subjects rfl
          rwa [hfoc] at h2
        rw [kfilter_subjectPhase h1]
        unfold kfilter
        rw [List.filter_append]
        rw [show List.filter (fun r => SubjectRow.shortName r == sn) db.subjects = [] from
          kfilter_eq_nil_of_not_hasKey h]
        simp [List.filter]
      · unfold subjectPhase
        have h' : hasKey SubjectRow.shortName c
            (focBy SubjectRow.shortName sn ⟨sn, ln, t⟩ db.subjects).1 = false := by
          rw [@hasKey_focBy_of_ne SubjectRow SubjectRow.shortName c sn
            ⟨sn, ln, t⟩ db.subjects rfl hsn]
          exact h
        have hc' : c ∈ ps.map Prod.snd := by
          simp only [List.map_cons, List.mem_cons] at hc
          rcases hc with hceq | htail
          · exact absurd hceq.symm hsn
          · exact htail
        exact ih h' hc'

/-! ### Persistence-loop lemmas -/

/-- The instructor natural key consumed by one loop iteration. -/
def instKeyOf : Option InstructorInfo → List JStr
  | some ii => [ii.name]
  | none => []

/-- The attribute natural keys consumed by one loop iteration. -/
def attrKeysOf (info : CrnInfo) : List JStr :=
  if jsTruthyStrOpt info.attributes then jsSplit ", " (info.attributes.getD []) else []

/-- The level natural keys consumed by one loop iteration. -/
def lvlKeysOf (info : CrnInfo) : List JStr :=
  if jsTruthyStrOpt info.levels then jsSplit ", " (info.levels.getD []) else []

/-- All instructor keys consumed by the loop from index `i` on. -/
def instKeys (insts : List InstructorInfo) : List CrnInfo → Nat → List JStr
  | [], _ => []
  | _ :: rest, i => instKeyOf (insts.get? i) ++ instKeys insts rest (i + 1)

/-- All attribute keys consumed by the loop. -/
def attrKeys : List CrnInfo → List JStr
  | [] => []
  | info :: rest => attrKeysOf info ++ attrKeys rest

/-- All level keys consumed by the loop. -/
def lvlKeys : List CrnInfo → List JStr
  | [] => []
  | info :: rest => lvlKeysOf info ++ lvlKeys rest

theorem instUpsert_stable {t : JStr} {io : Option InstructorInfo}
    {rows : List InstructorRow}
    (h : ∀ k ∈ instKeyOf io, hasKey InstructorRow.name k rows = true) :
    instUpsert t io rows = (rows, false) := by
  cases io with
  | none => rfl
  | some ii =>
    unfold instUpsert
    exact focBy_of_hasKey (h ii.name (by simp [instKeyOf]))

theorem attrUpsert_stable {t : JStr} {info : CrnInfo} {rows : List AttributeRow}
    (h : ∀ k ∈ attrKeysOf info, hasKey AttributeRow.attrText k rows = true) :
    attrUpsert t info rows = (rows, 0) := by
  unfold attrUpsert
  unfold attrKeysOf at h
  by_cases hb : jsTruthyStrOpt info.attributes
  · rw [if_pos hb]
    rw [if_pos hb] at h
    exact upsertAll_of_allKeys h
  · rw [if_neg hb]

theorem lvlUpsert_stable {t : JStr} {info : CrnInfo} {rows : List LevelRow}
    (h : ∀ k ∈ lvlKeysOf info, hasKey LevelRow.level k rows = true) :
    lvlUpsert t info rows = (rows, 0) := by
  unfold lvlUpsert
  unfold lvlKeysOf at h
  by_cases hb : jsTruthyStrOpt info.levels
  · rw [if_pos hb]
    rw [if_pos hb] at h
    exact upsertAll_of_allKeys h
  · rw [if_neg hb]

theorem hasKey_instUpsert_mono {t c : JStr} {io : Option InstructorInfo}
    {rows : List InstructorRow} (h : hasKey InstructorRow.name c rows = true) :
    hasKey InstructorRow.name c (instUpsert t io rows).1 = true := by
  cases io with
  | none => exact h
  | some ii => exact hasKey_focBy_mono h

theorem hasKey_attrUpsert_mono {t c : JStr} {info : CrnInfo}
    {rows : List AttributeRow} (h : hasKey AttributeRow.attrText c rows = true) :
    hasKey AttributeRow.attrText c (attrUpsert t info rows).1 = true := by
  unfold attrUpsert
  by_cases hb : jsTruthyStrOpt info.attributes
  · rw [if_pos hb]
    exact hasKey_upsertAll_mono h
  · rw [if_neg hb]
    exact h

theorem hasKey_lvlUpsert_mono {t c : JStr} {info : CrnInfo}
    {rows : List LevelRow} (h : hasKey LevelRow.level c rows = true) :
    hasKey LevelRow.level c (lvlUpsert t info rows).1 = true := by
  unfold lvlUpsert
  by_cases hb : jsTruthyStrOpt info.levels
  · rw [if_pos hb]
    exact hasKey_upsertAll_mono h
  · rw [if_neg hb]
    exact h

theorem hasKey_instUpsert_self {t : JStr} {io : Option InstructorInfo}
    {rows : List InstructorRow} :
    ∀ k ∈ instKeyOf io, hasKey InstructorRow.name k (instUpsert t io rows).1 = true := by
  intro k hk
  cases io with
  | none => simp [instKeyOf] at hk
  | some ii =>
    simp only [instKeyOf, List.mem_singleton] at hk
    subst hk
    exact hasKey_focBy_self rfl

theorem hasKey_attrUpsert_self {t : JStr} {info : CrnInfo} {rows : List AttributeRow} :
    ∀ k ∈ attrKeysOf info, hasKey AttributeRow.attrText k (attrUpsert t info rows).1 = true := by
  intro k hk
  unfold attrKeysOf at hk
  unfold attrUpsert
  by_cases hb : jsTruthyStrOpt info.attributes
  · rw [if_pos hb] at hk
    rw [if_pos hb]
    exact hasKey_upsertAll_self (fun _ => rfl) k hk
  · rw [if_neg hb] at hk
    simp at hk

theorem hasKey_lvlUpsert_self {t : JStr} {info : CrnInfo} {rows : List LevelRow} :
    ∀ k ∈ lvlKeysOf info, hasKey LevelRow.level k (lvlUpsert t info rows).1 = true := by
  intro k hk
  unfold lvlKeysOf at hk
  unfold lvlUpsert
  by_cases hb : jsTruthyStrOpt info.levels
  · rw [if_pos hb] at hk
    rw [if_pos hb]
    exact hasKey_upsertAll_self (fun _ => rfl) k hk
  · rw [if_neg hb] at hk
    simp at hk

theorem persistCourse_subjects {t : JStr} {info : CrnInfo}
    {io : Option InstructorInfo} {db : DB} {st : Stats} :
    (persistCourse t info io db st).1.subjects = db.subjects := rfl

theorem persistCourse_stable {t : JStr} {info : CrnInfo}
    {io : Option InstructorInfo} {db : DB} {st : Stats}
    (hi : ∀ k ∈ instKeyOf io, hasKey InstructorRow.name k db.instructors = true)
    (ha : ∀ k ∈ attrKeysOf info, hasKey AttributeRow.attrText k db.attributes = true)
    (hl : ∀ k ∈ lvlKeysOf info, hasKey LevelRow.level k db.levels = true) :
    persistCourse t info io db st = ({ db with crns := db.crns ++ [⟨info, t⟩] }, st) := by
  unfold persistCourse
  rw [instUpsert_stable hi, attrUpsert_stable ha, lvlUpsert_stable hl]
  rfl

theorem hasKey_persistCourse_inst {t c : JStr} {info : CrnInfo}
    {io : Option InstructorInfo} {db : DB} {st : Stats}
    (h : hasKey InstructorRow.name c db.instructors = true) :
    hasKey InstructorRow.name c (persistCourse t info io db st).1.instructors = true :=
  hasKey_instUpsert_mono h

theorem hasKey_persistCourse_attr {t c : JStr} {info : CrnInfo}
    {io : Option InstructorInfo} {db : DB} {st : Stats}
    (h : hasKey AttributeRow.attrText c db.attributes = true) :
    hasKey AttributeRow.attrText c (persistCourse t info io db st).1.attributes = true :=
  hasKey_attrUpsert_mono h

theorem hasKey_persistCourse_lvl {t c : JStr} {info : CrnInfo}
    {io : Option InstructorInfo} {db : DB} {st : Stats}
    (h : hasKey LevelRow.level c db.levels = true) :
    hasKey LevelRow.level c (persistCourse t info io db st).1.levels = true :=
  hasKey_lvlUpsert_mono h

theorem persistLoop_subjects {t : JStr} {insts : List InstructorInfo} :
    ∀ {infos : List CrnInfo} {i : Nat} {db : DB} {st : Stats},
    (persistLoop t insts infos i db st).1.subjects = db.subjects := by
  intro infos
  induction infos with
  | nil => intro i db st; rfl
  | cons info rest ih =>
    intro i db st
    unfold persistLoop
    rw [ih]
    exact persistCourse_subjects

theorem hasKey_persistLoop_inst {t c : JStr} {insts : List InstructorInfo} :
    ∀ {infos : List CrnInfo} {i : Nat} {db : DB} {st : Stats},
    hasKey InstructorRow.name c db.instructors = true →
    hasKey InstructorRow.name c (persistLoop t insts infos i db st).1.instructors = true := by
  intro infos
  induction infos with
  | nil => intro i db st h; exact h
  | cons info rest ih =>
    intro i db st h
    unfold persistLoop
    have hstep : hasKey InstructorRow.name c
        (persistCourse t info (insts.get? i) db st).1.instructors = true :=
      hasKey_persistCourse_inst h
    exact ih hstep

theorem hasKey_persistLoop_attr {t c : JStr} {insts : List InstructorInfo} :
    ∀ {infos : List CrnInfo} {i : Nat} {db : DB} {st : Stats},
    hasKey AttributeRow.attrText c db.attributes = true →
    hasKey AttributeRow.attrText c (persistLoop t insts infos i db st).1.attributes = true := by
  intro infos
  induction infos with
  | nil => intro i db st h; exact h
  | cons info rest ih =>
    intro i db st h
    unfold persistLoop
    have hstep : hasKey AttributeRow.attrText c
        (persistCourse t info (insts.get? i) db st).1.attributes = true :=
      hasKey_persistCourse_attr h
    exact ih hstep

theorem hasKey_persistLoop_lvl {t c : JStr} {insts : List InstructorInfo} :
    ∀ {infos : List CrnInfo} {i : Nat} {db : DB} {st : Stats},
    hasKey LevelRow.level c db.levels = true →
    hasKey LevelRow.level c (persistLoop t insts infos i db st).1.levels = true := by
  intro infos
  induction infos with
  | nil => intro i db st h; exact h
  | cons info rest ih =>
    intro i db st h
    unfold persistLoop
    have hstep : hasKey LevelRow.level c
        (persistCourse t info (insts.get? i) db st).1.levels = true :=
      hasKey_persistCourse_lvl h
    exact ih hstep

theorem hasKey_persistLoop_inst_self {t : JStr} {insts : List InstructorInfo} :
    ∀ {infos : List CrnInfo} {i : Nat} {db : DB} {st : Stats},
    ∀ k ∈ instKeys insts infos i,
    hasKey InstructorRow.name k (persistLoop t insts infos i db st).1.instructors = true := by
  intro infos
  induction infos with
  | nil => intro i db st k hk; simp [instKeys] at hk
  | cons info rest ih =>
    intro i db st k hk
    unfold instKeys at hk
    rcases List.mem_append.mp hk with h | h
    · unfold persistLoop
      have hbase : hasKey InstructorRow.name k
          (persistCourse t info (insts.get? i) db st).1.instructors = true :=
        hasKey_instUpsert_self k h
      exact hasKey_persistLoop_inst hbase
    · unfold persistLoop
      exact ih k h

theorem hasKey_persistLoop_attr_self {t : JStr} {insts : List InstructorInfo} :
    ∀ {infos : List CrnInfo} {i : Nat} {db : DB} {st : Stats},
    ∀ k ∈ attrKeys infos,
    hasKey AttributeRow.attrText k (persistLoop t insts infos i db st).1.attributes = true := by
  intro infos
  induction infos with
  | nil => intro i db st k hk; simp [attrKeys] at hk
  | cons info rest ih =>
    intro i db st k hk
    unfold attrKeys at hk
    rcases List.mem_append.mp hk with h | h
    · unfold persistLoop
      have hbase : hasKey AttributeRow.attrText k
          (persistCourse t info (insts.get? i) db st).1.attributes = true :=
        hasKey_attrUpsert_self k h
      exact hasKey_persistLoop_attr hbase
    · unfold persistLoop
      exact ih k h

theorem hasKey_persistLoop_lvl_self {t : JStr} {insts : List InstructorInfo} :
    ∀ {infos : List CrnInfo} {i : Nat} {db : DB} {st : Stats},
    ∀ k ∈ lvlKeys infos,
    hasKey LevelRow.level k (persistLoop t insts infos i db st).1.levels = true := by
  intro infos
  induction infos with
  | nil => intro i db st k hk; simp [lvlKeys] at hk
  | cons info rest ih =>
    intro i db st k hk
    unfold lvlKeys at hk
    rcases List.mem_append.mp hk with h | h
    · unfold persistLoop
      have hbase : hasKey LevelRow.level k
          (persistCourse t info (insts.get? i) db st).1.levels = true :=
        hasKey_lvlUpsert_self k h
      exact hasKey_persistLoop_lvl hbase
    · unfold persistLoop
      exact ih k h

theorem persistLoop_stable {t : JStr} {insts : List InstructorInfo} :
    ∀ {infos : List CrnInfo} {i : Nat} {db : DB} {st : Stats},
    (∀ k ∈ instKeys insts infos i, hasKey InstructorRow.name k db.instructors = true) →
    (∀ k ∈ attrKeys infos, hasKey AttributeRow.attrText k db.attributes = true) →
    (∀ k ∈ lvlKeys infos, hasKey LevelRow.level k db.levels = true) →
    persistLoop t insts infos i db st
      = ({ db with crns := db.crns ++ infos.map (fun x => ⟨x, t⟩) }, st) := by
  intro infos
  induction infos with
  | nil => intro i db st _ _ _; simp [persistLoop]
  | cons info rest ih =>
    intro i db st hi ha hl
    unfold persistLoop
    have hstep : persistCourse t info (insts.get? i) db st
        = ({ db with crns := db.crns ++ [⟨info, t⟩] }, st) :=
      persistCourse_stable
        (fun k hk => hi k (by unfold instKeys; exact List.mem_append.mpr (Or.inl hk)))
        (fun k hk => ha k (by unfold attrKeys; exact List.mem_append.mpr (Or.inl hk)))
        (fun k hk => hl k (by unfold lvlKeys; exact List.mem_append.mpr (Or.inl hk)))
    simp only [hstep]
    have hi' : ∀ k ∈ instKeys insts rest (i + 1),
        hasKey InstructorRow.name k
          ({ db with crns := db.crns ++ [⟨info, t⟩] } : DB).instructors = true :=
      fun k hk => hi k (by unfold instKeys; exact List.mem_append.mpr (Or.inr hk))
    have ha' : ∀ k ∈ attrKeys rest,
        hasKey AttributeRow.attrText k
          ({ db with crns := db.crns ++ [⟨info, t⟩] } : DB).attributes = true :=
      fun k hk => ha k (by unfold attrKeys; exact List.mem_append.mpr (Or.inr hk))
    have hl' : ∀ k ∈ lvlKeys rest,
        hasKey LevelRow.level k
          ({ db with crns := db.crns ++ [⟨info, t⟩] } : DB).levels = true :=
      fun k hk => hl k (by unfold lvlKeys; exact List.mem_append.mpr (Or.inr hk))
    rw [ih hi' ha' hl']
    simp [List.append_assoc]

theorem hasKey_of_kfilter_ne_nil {ρ : Type} {keyOf : ρ → JStr} {k : JStr}
    {rows : List ρ} (h : kfilter keyOf k rows ≠ []) :
    hasKey keyOf k rows = true := by
  cases hb : hasKey keyOf k rows with
  | true => rfl
  | false => exact absurd (kfilter_eq_nil_of_not_hasKey hb) h

/-- Whatever the extraction outcome, the subjects table after `crawl` is the
subjects table left by the subject phase: the persistence loop never touches
it. -/
theorem crawl_subjects {t : JStr} {inp : TermInput} {db db' : DB}
    {r : Except JsError Stats} (h : crawl t inp db = (db', r)) :
    db'.subjects = (subjectPhase t inp.subjectPairs db 0).1.subjects := by
  unfold crawl at h
  cases hres : totalResults inp.headers with
  | error e =>
    simp only [hres] at h
    injection h with hdb hr
    rw [← hdb]
  | ok res =>
    simp only [hres] at h
    injection h with hdb hr
    rw [← hdb, persistLoop_subjects]

/-! ### Sample inputs used by the concrete theorems -/

/-- A detail-block free text carrying all three extraction patterns. -/
def descSample : JStr :=
  ("Associated Term: Fall 2019\nLevels: Undergraduate\nLecture Schedule Type\n3.000 Credits").toList

/-- A data table in the column layout consumed by the extractor. -/
def ctSample : ClassTable :=
  ⟨[ "Class".toList, "10:00 am - 10:50 am".toList, "MW".toList, "Y".toList,
     "NAB 007".toList, "Aug 25".toList, "Lecture".toList, "Jane Doe (P)".toList ],
   some ("mailto:jdoe@aus.edu").toList⟩

/-- A scheduled listing: canonical 4-token header plus a data table. -/
def hTableSample : Header :=
  ⟨("Intro to Robotics - 12345 - COE 201 - 1").toList, descSample, some ctSample⟩

/-- A placeholder listing: canonical 4-token header, no data table. -/
def hPlaceholderSample : Header :=
  ⟨("Independent Study - 20001 - COE 399 - 2").toList, descSample, none⟩

/-- One term's scraped inputs: one subject pair and the two listings above. -/
def inpSample : TermInput :=
  ⟨[(("Computer Engineering").toList, ("COE").toList)], [hPlaceholderSample, hTableSample]⟩

/-- The store after one run of `crawl` on the sample term. -/
def c3db1 : DB := (crawl ("201910").toList inpSample emptyDB).1

/-- The store after a second, identical run of `crawl`. -/
def c3db2 : DB := (crawl ("201910").toList inpSample c3db1).1

/-- C3: running the per-term reference upserts twice over an identical batch
(same term) leaves every reference table exactly as the first run left it:
each lookup-or-insert by natural key (instructor name, subject shortCode,
level text, attribute text) resolves to the existing row on the second pass
and inserts nothing, so the Subject, Instructor, Level and Attribute row
counts after the second run equal those after the first. -/
theorem c3_reference_upsert_idempotent (t : JStr) (inp : TermInput)
    (db db1 db2 : DB) (s1 s2 : Stats)
    (h1 : crawl t inp db = (db1, Except.ok s1))
    (h2 : crawl t inp db1 = (db2, Except.ok s2)) :
    db2.subjects = db1.subjects ∧ db2.instructors = db1.instructors ∧
    db2.levels = db1.levels ∧ db2.attributes = db1.attributes ∧
    db2.subjects.length = db1.subjects.length ∧
    db2.instructors.length = db1.instructors.length ∧
    db2.levels.length = db1.levels.length ∧
    db2.attributes.length = db1.attributes.length := by
  unfold crawl at h1 h2
  cases hres : totalResults inp.headers with
  | error e => simp [hres] at h1
  | ok res =>
    simp only [hres] at h1 h2
    injection h1 with hdb1 hok1
    injection h2 with hdb2 hok2
    have hsub1 : ∀ p ∈ inp.subjectPairs,
        hasKey SubjectRow.shortName p.2 db1.subjects = true := by
      intro p hp
      rw [← hdb1, persistLoop_subjects]
      exact hasKey_subjectPhase_self p hp
    have hphase2 : subjectPhase t inp.subjectPairs db1 0 = (db1, 0) :=
      subjectPhase_stable hsub1
    simp only [hphase2] at hdb2
    have hinst : ∀ k ∈ instKeys res.instructorInfo res.crnInfo 0,
        hasKey InstructorRow.name k db1.instructors = true := by
      intro k hk
      rw [← hdb1]
      exact hasKey_persistLoop_inst_self k hk
    have hattr : ∀ k ∈ attrKeys res.crnInfo,
        hasKey AttributeRow.attrText k db1.attributes = true := by
      intro k hk
      rw [← hdb1]
      exact hasKey_persistLoop_attr_self k hk
    have hlvl : ∀ k ∈ lvlKeys res.crnInfo,
        hasKey LevelRow.level k db1.levels = true := by
      intro k hk
      rw [← hdb1]
      exact hasKey_persistLoop_lvl_self k hk
    have hloop2 : persistLoop t res.instructorInfo res.crnInfo 0 db1 ⟨0, 0, 0, 0⟩
        = ({ db1 with crns := db1.crns ++ res.crnInfo.map (fun x => ⟨x, t⟩) }, ⟨0, 0, 0, 0⟩) :=
      persistLoop_stable hinst hattr hlvl
    simp only [hloop2] at hdb2
    have e1 : db2.subjects = db1.subjects := by rw [← hdb2]
    have e2 : db2.instructors = db1.instructors := by rw [← hdb2]
    have e3 : db2.levels = db1.levels := by rw [← hdb2]
    have e4 : db2.attributes = db1.attributes := by rw [← hdb2]
    exact ⟨e1, e2, e3, e4, by rw [e1], by rw [e2], by rw [e3], by rw [e4]⟩

theorem c3_reference_upsert_idempotent_witness :
    c3db2.subjects = c3db1.subjects ∧ c3db2.instructors = c3db1.instructors ∧
    c3db2.levels = c3db1.levels ∧ c3db2.attributes = c3db1.attributes ∧
    c3db2.subjects.length = c3db1.subjects.length ∧
    c3db2.instructors.length = c3db1.instructors.length ∧
    c3db2.levels.length = c3db1.levels.length ∧
    c3db2.attributes.length = c3db1.attributes.length :=
  c3_reference_upsert_idempotent ("201910").toList inpSample emptyDB c3db1 c3db2
    ⟨1, 1, 0, 1⟩ ⟨0, 0, 0, 0⟩ (by rfl) (by rfl)

/-- The second term's scraped inputs: the same subject short code "COE" with a
drifted long name, and only the scheduled listing. -/
def inpSample2 : TermInput :=
  ⟨[(("Computer Eng.").toList, ("COE").toList)], [hTableSample]⟩

/-- The store after crawling the second sample term on top of the first. -/
def c9db2 : DB := (crawl ("202010").toList inpSample2 c3db1).1

/-- C9: a subject short code observed in two different terms yields exactly
one Subject row after both terms are processed; its firstSeen is the term
processed first, and the second (hit) observation changes no attribute of the
existing row — in particular the long name is not overwritten, since the
row set for that code is identical after both terms. -/
theorem c9_subject_upsert_across_terms (t1 t2 c : JStr) (inp1 inp2 : TermInput)
    (db db1 db2 : DB) (r1 r2 : Except JsError Stats)
    (h0 : hasKey SubjectRow.shortName c db.subjects = false)
    (hc : c ∈ inp1.subjectPairs.map Prod.snd)
    (h1 : crawl t1 inp1 db = (db1, r1))
    (h2 : crawl t2 inp2 db1 = (db2, r2)) :
    (kfilter SubjectRow.shortName c db2.subjects).length = 1 ∧
    kfilter SubjectRow.shortName c db2.subjects
      = kfilter SubjectRow.shortName c db1.subjects ∧
    (∀ r ∈ kfilter SubjectRow.shortName c db2.subjects, r.firstSeen = t1) := by
  have hs1 : db1.subjects = (subjectPhase t1 inp1.subjectPairs db 0).1.subjects :=
    crawl_subjects h1
  have hs2 : db2.subjects = (subjectPhase t2 inp2.subjectPairs db1 0).1.subjects :=
    crawl_subjects h2
  obtain ⟨ln0, hln⟩ := subjectPhase_insert h0 hc
  have hk1 : kfilter SubjectRow.shortName c db1.subjects
      = [⟨c, ln0, t1⟩] := by
    rw [hs1]
    exact hln
  have hhk : hasKey SubjectRow.shortName c db1.subjects = true :=
    hasKey_of_kfilter_ne_nil (by rw [hk1]; simp)
  have hk2 : kfilter SubjectRow.shortName c db2.subjects
      = [⟨c, ln0, t1⟩] := by
    rw [hs2, kfilter_subjectPhase hhk]
    exact hk1
  refine ⟨by rw [hk2]; rfl, by rw [hk2, hk1], ?_⟩
  intro r hr
  rw [hk2] at hr
  simp only [List.mem_singleton] at hr
  rw [hr]

theorem c9_subject_upsert_across_terms_witness :
    (kfilter SubjectRow.shortName ("COE").toList c9db2.subjects).length = 1 ∧
    kfilter SubjectRow.shortName ("COE").toList c9db2.subjects
      = kfilter SubjectRow.shortName ("COE").toList c3db1.subjects ∧
    (∀ r ∈ kfilter SubjectRow.shortName ("COE").toList c9db2.subjects,
      r.firstSeen = ("201910").toList) :=
  c9_subject_upsert_across_terms ("201910").toList ("202010").toList ("COE").toList
    inpSample inpSample2 emptyDB c3db1 c9db2
    (Except.ok ⟨1, 1, 0, 1⟩) ((crawl ("202010").toList inpSample2 c3db1).2)
    (by rfl) (by decide) (by rfl) (by rfl)

/-- Number of day flags set on a record. -/
def dayFlagCount (info : CrnInfo) : Nat :=
  (if info.isSunday then 1 else 0) + (if info.isMonday then 1 else 0) +
  (if info.isTuesday then 1 else 0) + (if info.isWednesday then 1 else 0) +
  (if info.isThursday then 1 else 0)

/-- An extracted record with no field populated and all flags clear. -/
def blankInfo : CrnInfo :=
  ⟨none, none, none, none, none, none, none, none, none, none, none,
   false, false, false, false, false, none, none, none, none, none, none⟩

/-- C2: for every meeting-days string, the day-flag cascade sets at most one
of the five flags, chosen by first-match precedence over the letters
U, M, T, W, R in that exact order — when the text contains "U" the Sunday
flag is set and no later letter is consulted, even if the text also names
other days. -/
theorem c2_day_flag_exclusivity (days : JStr) (info : CrnInfo)
    (h : info.isSunday = false ∧ info.isMonday = false ∧ info.isTuesday = false ∧
         info.isWednesday = false ∧ info.isThursday = false) :
    (setDayFlags days info).isSunday = jsIncludes days ("U".toList) ∧
    (setDayFlags days info).isMonday
      = (!jsIncludes days ("U".toList) && jsIncludes days ("M".toList)) ∧
    (setDayFlags days info).isTuesday
      = (!jsIncludes days ("U".toList) && !jsIncludes days ("M".toList)
          && jsIncludes days ("T".toList)) ∧
    (setDayFlags days info).isWednesday
      = (!jsIncludes days ("U".toList) && !jsIncludes days ("M".toList)
          && !jsIncludes days ("T".toList) && jsIncludes days ("W".toList)) ∧
    (setDayFlags days info).isThursday
      = (!jsIncludes days ("U".toList) && !jsIncludes days ("M".toList)
          && !jsIncludes days ("T".toList) && !jsIncludes days ("W".toList)
          && jsIncludes days ("R".toList)) ∧
    dayFlagCount (setDayFlags days info) ≤ 1 := by
  obtain ⟨h1, h2, h3, h4, h5⟩ := h
  unfold setDayFlags dayFlagCount
  split_ifs <;> simp_all

theorem c2_day_flag_exclusivity_witness :
    (setDayFlags ("MW").toList blankInfo).isSunday
      = jsIncludes ("MW").toList ("U".toList) ∧
    (setDayFlags ("MW").toList blankInfo).isMonday
      = (!jsIncludes ("MW").toList ("U".toList) && jsIncludes ("MW").toList ("M".toList)) ∧
    (setDayFlags ("MW").toList blankInfo).isTuesday
      = (!jsIncludes ("MW").toList ("U".toList) && !jsIncludes ("MW").toList ("M".toList)
          && jsIncludes ("MW").toList ("T".toList)) ∧
    (setDayFlags ("MW").toList blankInfo).isWednesday
      = (!jsIncludes ("MW").toList ("U".toList) && !jsIncludes ("MW").toList ("M".toList)
          && !jsIncludes ("MW").toList ("T".toList) && jsIncludes ("MW").toList ("W".toList)) ∧
    (setDayFlags ("MW").toList blankInfo).isThursday
      = (!jsIncludes ("MW").toList ("U".toList) && !jsIncludes ("MW").toList ("M".toList)
          && !jsIncludes ("MW").toList ("T".toList) && !jsIncludes ("MW").toList ("W".toList)
          && jsIncludes ("MW").toList ("R".toList)) ∧
    dayFlagCount (setDayFlags ("MW").toList blankInfo) ≤ 1 :=
  c2_day_flag_exclusivity ("MW").toList blankInfo ⟨rfl, rfl, rfl, rfl, rfl⟩

/-- C4: every 5-token header that triggers either documented irregularity
(second token containing "Lab", or second token containing "Targeted eLipo")
is re-mapped to crn=T[2], subject=split(T[3])[0], courseNumber=split(T[3])[1],
title=T[0]+" "+T[1], shortName=T[3], section=T[4]; both trigger paths produce
exactly this same field assignment. -/
theorem c4_five_token_remap (tok : List JStr) (info : CrnInfo)
    (h5 : tok.length = 5)
    (htr : jsIncludes (tok.getD 1 []) ("Lab".toList) = true ∨
           jsIncludes (tok.getD 1 []) ("Targeted eLipo".toList) = true) :
    applyRemap tok info = Except.ok { info with
      crn := tok.get? 2
      subject := (jsSplit " " (tok.getD 3 [])).get? 0
      classNumber := (jsSplit " " (tok.getD 3 [])).get? 1
      classTitle := some (tok.getD 0 [] ++ ' ' :: tok.getD 1 [])
      classShortName := some (tok.getD 3 [])
      classSection := tok.get? 4 } := by
  have hlt : ∀ i, i < 5 → tok.get? i = some (tok.getD i []) := by
    intro i hi
    have hi' : i < tok.length := by omega
    rw [List.getD_eq_get?, List.get?_eq_get hi']
    rfl
  have hremap : doRemap tok info = Except.ok { info with
      crn := tok.get? 2
      subject := (jsSplit " " (tok.getD 3 [])).get? 0
      classNumber := (jsSplit " " (tok.getD 3 [])).get? 1
      classTitle := some (tok.getD 0 [] ++ ' ' :: tok.getD 1 [])
      classShortName := some (tok.getD 3 [])
      classSection := tok.get? 4 } := by
    unfold doRemap
    rw [hlt 3 (by omega)]
    simp only [hlt 0 (by omega), hlt 1 (by omega), jsTemplOpt]
  cases hLab : jsIncludes (tok.getD 1 []) ("Lab".toList) with
  | true =>
    unfold applyRemap
    have hc : (decide (tok.length = 5) && jsIncludes (tok.getD 1 []) ("Lab".toList)) = true := by
      rw [h5, hLab]
      rfl
    rw [if_pos hc]
    exact hremap
  | false =>
    have hLipo : jsIncludes (tok.getD 1 []) ("Targeted eLipo".toList) = true := by
      rcases htr with h | h
      · rw [hLab] at h
        exact absurd h (by simp)
      · exact h
    unfold applyRemap
    have hnc : ¬ ((decide (tok.length = 5) && jsIncludes (tok.getD 1 []) ("Lab".toList)) = true) := by
      rw [hLab]
      simp
    rw [if_neg hnc]
    split
    · next heq =>
        rw [hlt 1 (by omega)] at heq
        cases heq
    · next t1 heq =>
        have ht1 : t1 = tok.getD 1 [] := by
          have hx := hlt 1 (by omega)
          rw [heq] at hx
          exact Option.some.inj hx
        rw [ht1, if_pos hLipo]
        exact hremap

/-- A 5-token header triggering the "Lab" irregularity. -/
def tok5Sample : List JStr :=
  [("Calculus I").toList, ("Lab").toList, ("11111").toList,
   ("MTH 103").toList, ("2").toList]

theorem c4_five_token_remap_witness :
    applyRemap tok5Sample blankInfo = Except.ok { blankInfo with
      crn := tok5Sample.get? 2
      subject := (jsSplit " " (tok5Sample.getD 3 [])).get? 0
      classNumber := (jsSplit " " (tok5Sample.getD 3 [])).get? 1
      classTitle := some (tok5Sample.getD 0 [] ++ ' ' :: tok5Sample.getD 1 [])
      classShortName := some (tok5Sample.getD 3 [])
      classSection := tok5Sample.get? 4 } :=
  c4_five_token_remap tok5Sample blankInfo (by rfl) (Or.inl (by decide))

/-! ### Extraction-shape lemmas -/

theorem splitLoop_ne_nil (c0 : Char) (sep' : JStr) (fuel : Nat) (l : JStr) :
    splitLoop c0 sep' fuel l ≠ [] := by
  cases fuel with
  | zero => cases l <;> simp [splitLoop]
  | succ n =>
    cases l with
    | nil => simp [splitLoop]
    | cons c cs =>
      unfold splitLoop
      split
      · simp
      · split <;> simp

theorem get?_isSome_of_lt {α : Type} {l : List α} {i : Nat} (h : i < l.length) :
    (l.get? i).isSome = true := by
  rw [List.get?_eq_get h]
  rfl

theorem get?_zero_isSome_of_ne_nil {α : Type} {l : List α} (h : l ≠ []) :
    (l.get? 0).isSome = true := by
  cases l with
  | nil => exact absurd rfl h
  | cons a l => rfl

theorem lt_of_get?_eq_some {α : Type} {l : List α} {i : Nat} {a : α}
    (h : l.get? i = some a) : i < l.length := by
  cases Nat.lt_or_ge i l.length with
  | inl hlt => exact hlt
  | inr hge =>
    rw [List.get?_eq_none.mpr hge] at h
    cases h

/-- The attributes assignment changes no field other than `attributes`. -/
theorem applyAttributes_preserves (desc : JStr) (info : CrnInfo) :
    (applyAttributes desc info).crn = info.crn ∧
    (applyAttributes desc info).subject = info.subject ∧
    (applyAttributes desc info).classTitle = info.classTitle ∧
    (applyAttributes desc info).classShortName = info.classShortName ∧
    (applyAttributes desc info).classNumber = info.classNumber ∧
    (applyAttributes desc info).classSection = info.classSection ∧
    (applyAttributes desc info).classType = info.classType ∧
    (applyAttributes desc info).isLab = info.isLab ∧
    (applyAttributes desc info).instructor = info.instructor ∧
    (applyAttributes desc info).startTime = info.startTime ∧
    (applyAttributes desc info).endTime = info.endTime ∧
    (applyAttributes desc info).isSunday = info.isSunday ∧
    (applyAttributes desc info).isMonday = info.isMonday ∧
    (applyAttributes desc info).isTuesday = info.isTuesday ∧
    (applyAttributes desc info).isWednesday = info.isWednesday ∧
    (applyAttributes desc info).isThursday = info.isThursday ∧
    (applyAttributes desc info).levels = info.levels ∧
    (applyAttributes desc info).scheduleType = info.scheduleType ∧
    (applyAttributes desc info).credits = info.credits ∧
    (applyAttributes desc info).classroom = info.classroom ∧
    (applyAttributes desc info).seatsAvailable = info.seatsAvailable := by
  unfold applyAttributes
  split <;> simp

/-- The day-flag cascade changes no field other than the five day flags. -/
theorem setDayFlags_preserves (days : JStr) (info : CrnInfo) :
    (setDayFlags days info).crn = info.crn ∧
    (setDayFlags days info).subject = info.subject ∧
    (setDayFlags days info).classTitle = info.classTitle ∧
    (setDayFlags days info).classShortName = info.classShortName ∧
    (setDayFlags days info).classNumber = info.classNumber ∧
    (setDayFlags days info).classSection = info.classSection ∧
    (setDayFlags days info).classType = info.classType ∧
    (setDayFlags days info).isLab = info.isLab ∧
    (setDayFlags days info).instructor = info.instructor ∧
    (setDayFlags days info).startTime = info.startTime ∧
    (setDayFlags days info).endTime = info.endTime ∧
    (setDayFlags days info).levels = info.levels ∧
    (setDayFlags days info).attributes = info.attributes ∧
    (setDayFlags days info).scheduleType = info.scheduleType ∧
    (setDayFlags days info).credits = info.credits ∧
    (setDayFlags days info).classroom = info.classroom ∧
    (setDayFlags days info).seatsAvailable = info.seatsAvailable := by
  unfold setDayFlags
  split_ifs <;> simp

/-- An `Except.ok` outcome of the remap step describes exactly the re-mapped
record. -/
theorem doRemap_ok_shape {tok : List JStr} {info info' : CrnInfo}
    (h : doRemap tok info = Except.ok info') :
    ∃ t3, tok.get? 3 = some t3 ∧ info' = { info with
      crn := tok.get? 2
      subject := (jsSplit " " t3).get? 0
      classNumber := (jsSplit " " t3).get? 1
      classTitle := some (jsTemplOpt (tok.get? 0) ++ ' ' :: jsTemplOpt (tok.get? 1))
      classShortName := some t3
      classSection := tok.get? 4 } := by
  unfold doRemap at h
  split at h
  · cases h
  · next t3 heq => exact ⟨t3, heq, (Except.ok.inj h).symm⟩

/-- An `Except.ok` outcome of the remap dispatcher either left the record
unchanged or applied the re-map. -/
theorem applyRemap_ok_cases {tok : List JStr} {info info' : CrnInfo}
    (h : applyRemap tok info = Except.ok info') :
    info' = info ∨ doRemap tok info = Except.ok info' := by
  unfold applyRemap at h
  split at h
  · exact Or.inr h
  · split at h
    · cases h
    · split at h
      · exact Or.inr h
      · exact Or.inl (Except.ok.inj h).symm

/-- A 4-token header whose second token lacks the "Targeted eLipo" marker is
left unchanged by the remap dispatcher. -/
theorem applyRemap_four (tok : List JStr) (info : CrnInfo)
    (hlen : tok.length = 4)
    (hno : jsIncludes (tok.getD 1 []) ("Targeted eLipo".toList) = false) :
    applyRemap tok info = Except.ok info := by
  unfold applyRemap
  have hnc : ¬ ((decide (tok.length = 5) && jsIncludes (tok.getD 1 []) ("Lab".toList)) = true) := by
    rw [hlen]
    simp
  rw [if_neg hnc]
  have hg1 : tok.get? 1 = some (tok.getD 1 []) := by
    rw [List.getD_eq_get?, List.get?_eq_get (by omega)]
    rfl
  split
  · next heq =>
    rw [hg1] at heq
    cases heq
  · next t1 heq =>
    have ht1 : t1 = tok.getD 1 [] := by
      rw [heq] at hg1
      exact Option.some.inj hg1
    rw [ht1, if_neg (by rw [hno]; simp)]

/-- Inversion of a successful per-header extraction: the produced record is
the attributes assignment applied to a remap-dispatcher outcome over a base
record whose token-derived fields — and, for placeholders, whose
schedule-dependent fields — are known. -/
theorem extractOne_ok_shape {hh : Header} {info : CrnInfo} {io : Option InstructorInfo}
    (h : extractOne hh = Except.ok (info, io)) :
    ∃ base x : CrnInfo,
      applyRemap (jsSplit " - " hh.headerText) base = Except.ok x ∧
      info = applyAttributes hh.descriptionText x ∧
      base.crn = (jsSplit " - " hh.headerText).get? 1 ∧
      base.classTitle = (jsSplit " - " hh.headerText).get? 0 ∧
      base.classSection = (jsSplit " - " hh.headerText).get? 3 ∧
      (∃ subj2, (jsSplit " - " hh.headerText).get? 2 = some subj2 ∧
        base.subject = (jsSplit " " subj2).get? 0 ∧
        base.classShortName = some subj2 ∧
        base.classNumber = (jsSplit " " subj2).get? 1) ∧
      (hh.classTable = none →
        io = none ∧ base.classType = none ∧ base.isLab = none ∧
        base.instructor = none ∧ base.startTime = none ∧ base.endTime = none ∧
        base.classroom = none ∧ base.seatsAvailable = none ∧
        base.isSunday = false ∧ base.isMonday = false ∧ base.isTuesday = false ∧
        base.isWednesday = false ∧ base.isThursday = false) := by
  unfold extractOne at h
  cases hct : hh.classTable with
  | none =>
    simp only [hct] at h
    split at h
    · cases h
    · next i0 heq =>
      have hpair := Except.ok.inj h
      have hinfo : info = i0 := (congrArg Prod.fst hpair).symm
      have hio : io = none := (congrArg Prod.snd hpair).symm
      unfold extractNoTable at heq
      split at heq
      · cases heq
      · next subj2 hs2 =>
        split at heq
        · cases heq
        · next olv hlv =>
          split at heq
          · cases heq
          · next osch hsch =>
            split at heq
            · cases heq
            · next ocr hcr =>
              cases hr : applyRemap (jsSplit " - " hh.headerText)
                  (baseNoTable (jsSplit " - " hh.headerText) subj2 olv osch ocr) with
              | error e =>
                rw [hr] at heq
                simp only [Except.map] at heq
                cases heq
              | ok x =>
                rw [hr] at heq
                simp only [Except.map] at heq
                refine ⟨baseNoTable (jsSplit " - " hh.headerText) subj2 olv osch ocr,
                  x, hr, ?_, rfl, rfl, rfl, ⟨subj2, hs2, rfl, hs2, rfl⟩,
                  fun _ => ⟨hio, rfl, rfl, rfl, rfl, rfl, rfl, rfl, rfl, rfl, rfl, rfl, rfl⟩⟩
                rw [hinfo]
                exact (Except.ok.inj heq).symm
  | some ct =>
    simp only [hct] at h
    split at h
    · cases h
    · next i0 inst0 heq =>
      have hpair := Except.ok.inj h
      have hinfo : info = i0 := (congrArg Prod.fst hpair).symm
      unfold extractTable at heq
      split at heq
      · cases heq
      · next subj2 hs2 =>
        split at heq
        · cases heq
        · next td6 htd6 =>
          split at heq
          · cases heq
          · next td7 htd7 =>
            split at heq
            · cases heq
            · next td1 htd1 =>
              split at heq
              · cases heq
              · next olv hlv =>
                split at heq
                · cases heq
                · next osch hsch =>
                  split at heq
                  · cases heq
                  · next ocr hcr =>
                    split at heq
                    · cases heq
                    · next td4 htd4 =>
                      split at heq
                      · cases heq
                      · next td3 htd3 =>
                        split at heq
                        · cases heq
                        · next email hemail =>
                          split at heq
                          · cases heq
                          · next td2 htd2 =>
                            cases hr : applyRemap (jsSplit " - " hh.headerText)
                                (setDayFlags td2 (baseTable (jsSplit " - " hh.headerText)
                                  subj2 td6 td7 td1 td4 td3 olv osch ocr)) with
                            | error e =>
                              rw [hr] at heq
                              simp only [Except.map] at heq
                              cases heq
                            | ok x =>
                              rw [hr] at heq
                              simp only [Except.map] at heq
                              obtain ⟨hpcrn, hpsub, hptitle, hpshort, hpnum, hpsect, -⟩ :=
                                setDayFlags_preserves td2 (baseTable (jsSplit " - " hh.headerText)
                                  subj2 td6 td7 td1 td4 td3 olv osch ocr)
                              refine ⟨setDayFlags td2 (baseTable (jsSplit " - " hh.headerText)
                                  subj2 td6 td7 td1 td4 td3 olv osch ocr),
                                x, hr, ?_, hpcrn, by rw [hptitle]; rfl, by rw [hpsect]; rfl,
                                ⟨subj2, hs2, by rw [hpsub]; rfl, by rw [hpshort]; exact hs2,
                                  by rw [hpnum]; rfl⟩,
                                fun habs => Option.noConfusion habs⟩
                              rw [hinfo]
                              exact (congrArg Prod.fst (Except.ok.inj heq)).symm

theorem jsSplit_space_ne_nil (s : JStr) : jsSplit " " s ≠ [] :=
  splitLoop_ne_nil ' ' [] s.length s

/-- A 4-token header whose second token contains the "Targeted eLipo"
marker. -/
def hLipo4Sample : Header :=
  ⟨("Body Contouring - Targeted eLipo - 33333 - HPE 101").toList, descSample, none⟩

/-- C5 counterexample: the claim is false as stated — this header splits into
exactly 4 tokens, yet extraction invokes the 5-token remap path because the
second token contains "Targeted eLipo" (the second remap guard of crawl.js
line 179 has no length check): the extracted crn is token 2 ("33333"), not
the canonical token 1. -/
theorem c5_counterexample :
    (jsSplit " - " hLipo4Sample.headerText).length = 4 ∧
    (extractOne hLipo4Sample).map (fun p => p.1.crn)
      = Except.ok (some (("33333").toList)) ∧
    some (("33333").toList) ≠ (jsSplit " - " hLipo4Sample.headerText).get? 1 := by
  refine ⟨rfl, rfl, ?_⟩
  decide

/-- C5 (amended): for every header whose line splits into exactly 4 tokens
and whose second token does not contain "Targeted eLipo", extraction never
invokes the 5-token remap path: the record keeps the canonical assignment
crn=T[1], subject=split(T[2])[0], title=T[0], section=T[3]. -/
theorem c5_four_token_canonical_amended (hh : Header) (info : CrnInfo)
    (io : Option InstructorInfo)
    (hlen : (jsSplit " - " hh.headerText).length = 4)
    (hno : jsIncludes ((jsSplit " - " hh.headerText).getD 1 [])
      ("Targeted eLipo".toList) = false)
    (hok : extractOne hh = Except.ok (info, io)) :
    info.crn = (jsSplit " - " hh.headerText).get? 1 ∧
    info.subject = (jsSplit " " ((jsSplit " - " hh.headerText).getD 2 [])).get? 0 ∧
    info.classTitle = (jsSplit " - " hh.headerText).get? 0 ∧
    info.classSection = (jsSplit " - " hh.headerText).get? 3 := by
  obtain ⟨base, x, hrm, hinfo, hcrn, htitle, hsect, ⟨subj2, hs2, hsubj, hshort, hnum⟩, -⟩ :=
    extractOne_ok_shape hok
  have hid : applyRemap (jsSplit " - " hh.headerText) base = Except.ok base :=
    applyRemap_four _ base hlen hno
  rw [hid] at hrm
  have hxb : x = base := (Except.ok.inj hrm).symm
  obtain ⟨pc, ps, pt, p4, p5, psec, -⟩ :=
    applyAttributes_preserves hh.descriptionText x
  have hgd2 : (jsSplit " - " hh.headerText).getD 2 [] = subj2 := by
    rw [List.getD_eq_get?, hs2]
    rfl
  refine ⟨?_, ?_, ?_, ?_⟩
  · rw [hinfo, pc, hxb, hcrn]
  · rw [hinfo, ps, hxb, hsubj, hgd2]
  · rw [hinfo, pt, hxb, htitle]
  · rw [hinfo, psec, hxb, hsect]

/-- The record extracted from the sample 4-token scheduled listing. -/
def c5wPair : CrnInfo × Option InstructorInfo :=
  ((extractOne hTableSample).toOption).getD (blankInfo, none)

theorem c5_four_token_canonical_amended_witness :
    c5wPair.1.crn = (jsSplit " - " hTableSample.headerText).get? 1 ∧
    c5wPair.1.subject
      = (jsSplit " " ((jsSplit " - " hTableSample.headerText).getD 2 [])).get? 0 ∧
    c5wPair.1.classTitle = (jsSplit " - " hTableSample.headerText).get? 0 ∧
    c5wPair.1.classSection = (jsSplit " - " hTableSample.headerText).get? 3 :=
  c5_four_token_canonical_amended hTableSample c5wPair.1 c5wPair.2
    (by rfl) (by rfl) (by rfl)

/-- C6 counterexample: the claim's "does not fail" is false as stated — a
placeholder header (no data table) whose detail free text lacks the
"Levels: " label makes extraction throw a TypeError (crawl.js line 118 reads
`[0]` of a null `match` result) instead of yielding a course record. -/
theorem c6_counterexample :
    extractOne ⟨("Topology - 10101 - MTH 330 - 1").toList, [], none⟩
      = Except.error JsError.typeError := by rfl

/-- C6 (amended): every placeholder header (no data table) whose extraction
succeeds — which requires the Levels/Schedule/Credits patterns to be present
in the free text — yields a course record whose schedule-dependent fields
(classType, isLab, instructor, startTime, endTime, classroom,
seatsAvailable) are all the explicit absence value, whose five day flags are
all false, and whose token-derived fields (crn, subject, title, short name)
are populated; no instructor record is produced for it. -/
theorem c6_placeholder_record_amended (hh : Header) (info : CrnInfo)
    (io : Option InstructorInfo)
    (hct : hh.classTable = none)
    (hok : extractOne hh = Except.ok (info, io)) :
    io = none ∧ info.classType = none ∧ info.isLab = none ∧
    info.instructor = none ∧ info.startTime = none ∧ info.endTime = none ∧
    info.classroom = none ∧ info.seatsAvailable = none ∧
    info.isSunday = false ∧ info.isMonday = false ∧ info.isTuesday = false ∧
    info.isWednesday = false ∧ info.isThursday = false ∧
    info.crn.isSome = true ∧ info.subject.isSome = true ∧
    info.classTitle.isSome = true ∧ info.classShortName.isSome = true := by
  obtain ⟨base, x, hrm, hinfo, hcrn, htitle, hsect, ⟨subj2, hs2, hsubj, hshort, hnum⟩, hnone⟩ :=
    extractOne_ok_shape hok
  obtain ⟨hio, bct, bil, bi, bst, bet, bcl, bsa, bs, bm, btu, bw, bth⟩ := hnone hct
  obtain ⟨ac, asu, ati, ash, an, asec, act, ail, ains, ast, aet,
    asun, amon, atue, awed, athu, alv, asch, acr, acl, asa⟩ :=
    applyAttributes_preserves hh.descriptionText x
  have h2lt : 2 < (jsSplit " - " hh.headerText).length := lt_of_get?_eq_some hs2
  rcases applyRemap_ok_cases hrm with hxb | hdo
  · subst hxb
    refine ⟨hio, ?_, ?_, ?_, ?_, ?_, ?_, ?_, ?_, ?_, ?_, ?_, ?_, ?_, ?_, ?_, ?_⟩
    · rw [hinfo, act, bct]
    · rw [hinfo, ail, bil]
    · rw [hinfo, ains, bi]
    · rw [hinfo, ast, bst]
    · rw [hinfo, aet, bet]
    · rw [hinfo, acl, bcl]
    · rw [hinfo, asa, bsa]
    · rw [hinfo, asun, bs]
    · rw [hinfo, amon, bm]
    · rw [hinfo, atue, btu]
    · rw [hinfo, awed, bw]
    · rw [hinfo, athu, bth]
    · rw [hinfo, ac, hcrn]
      exact get?_isSome_of_lt (by omega)
    · rw [hinfo, asu, hsubj]
      exact get?_zero_isSome_of_ne_nil (jsSplit_space_ne_nil subj2)
    · rw [hinfo, ati, htitle]
      exact get?_isSome_of_lt (by omega)
    · rw [hinfo, ash, hshort]
      rfl
  · obtain ⟨t3, ht3, hxshape⟩ := doRemap_ok_shape hdo
    subst hxshape
    refine ⟨hio, ?_, ?_, ?_, ?_, ?_, ?_, ?_, ?_, ?_, ?_, ?_, ?_, ?_, ?_, ?_, ?_⟩
    · rw [hinfo, act]
      exact bct
    · rw [hinfo, ail]
      exact bil
    · rw [hinfo, ains]
      exact bi
    · rw [hinfo, ast]
      exact bst
    · rw [hinfo, aet]
      exact bet
    · rw [hinfo, acl]
      exact bcl
    · rw [hinfo, asa]
      exact bsa
    · rw [hinfo, asun]
      exact bs
    · rw [hinfo, amon]
      exact bm
    · rw [hinfo, atue]
      exact btu
    · rw [hinfo, awed]
      exact bw
    · rw [hinfo, athu]
      exact bth
    · rw [hinfo, ac]
      show ((jsSplit " - " hh.headerText).get? 2).isSome = true
      rw [hs2]
      rfl
    · rw [hinfo, asu]
      show ((jsSplit " " t3).get? 0).isSome = true
      exact get?_zero_isSome_of_ne_nil (jsSplit_space_ne_nil t3)
    · rw [hinfo, ati]
      rfl
    · rw [hinfo, ash]
      rfl

/-- The record extracted from the sample placeholder listing. -/
def c6wPair : CrnInfo × Option InstructorInfo :=
  ((extractOne hPlaceholderSample).toOption).getD (blankInfo, none)

theorem c6_placeholder_record_amended_witness :
    c6wPair.2 = none ∧ c6wPair.1.classType = none ∧ c6wPair.1.isLab = none ∧
    c6wPair.1.instructor = none ∧ c6wPair.1.startTime = none ∧
    c6wPair.1.endTime = none ∧ c6wPair.1.classroom = none ∧
    c6wPair.1.seatsAvailable = none ∧ c6wPair.1.isSunday = false ∧
    c6wPair.1.isMonday = false ∧ c6wPair.1.isTuesday = false ∧
    c6wPair.1.isWednesday = false ∧ c6wPair.1.isThursday = false ∧
    c6wPair.1.crn.isSome = true ∧ c6wPair.1.subject.isSome = true ∧
    c6wPair.1.classTitle.isSome = true ∧ c6wPair.1.classShortName.isSome = true :=
  c6_placeholder_record_amended hPlaceholderSample c6wPair.1 c6wPair.2
    (by rfl) (by rfl)

/-- A successful per-header extraction produces an instructor record exactly
when the listing has a data table. -/
theorem extractOne_instructor_iff {hh : Header} {info : CrnInfo}
    {io : Option InstructorInfo}
    (h : extractOne hh = Except.ok (info, io)) :
    io.isSome = hh.classTable.isSome := by
  unfold extractOne at h
  cases hct : hh.classTable with
  | none =>
    simp only [hct] at h
    split at h
    · cases h
    · next i0 heq =>
      have hsnd : (none : Option InstructorInfo) = io :=
        congrArg Prod.snd (Except.ok.inj h)
      rw [← hsnd]
      rfl
  | some ct =>
    simp only [hct] at h
    split at h
    · cases h
    · next i0 inst0 heq =>
      have hsnd : some inst0 = io := congrArg Prod.snd (Except.ok.inj h)
      rw [← hsnd]
      rfl

/-- C1 counterexample: the claim is false as stated — on a document with one
placeholder listing followed by one scheduled listing, extraction succeeds
with a course-record sequence of length 2 but an instructor sequence of
length 1: the instructor array is compacted, carrying no absence marker at
the placeholder's position, so it is shorter than the header count. -/
theorem c1_counterexample :
    (totalResults [hPlaceholderSample, hTableSample]).map
      (fun r => (r.crnInfo.length, r.instructorInfo.length))
      = Except.ok (2, 1) := by rfl

/-- C1 (amended): for every raw listing document on which extraction
succeeds, the course-record sequence has exactly one record per header line
in document order, and the instructor sequence is the compacted sequence of
one record per table-bearing header, in document order — its length is the
number of headers with a data table, not the header count; per header,
exactly one instructor record is produced when a data table is present and
none otherwise. -/
theorem c1_parallel_sequences_amended :
    (∀ (hs : List Header) (r : ExtractResult), totalResults hs = Except.ok r →
      r.crnInfo.length = hs.length ∧
      r.instructorInfo.length
        = (hs.filter (fun hh => hh.classTable.isSome)).length) ∧
    (∀ (hh : Header) (info : CrnInfo) (io : Option InstructorInfo),
      extractOne hh = Except.ok (info, io) → io.isSome = hh.classTable.isSome) := by
  constructor
  · intro hs
    induction hs with
    | nil =>
      intro r h
      have hr := Except.ok.inj h
      rw [← hr]
      exact ⟨rfl, rfl⟩
    | cons hh hs ih =>
      intro r h
      unfold totalResults at h
      split at h
      · cases h
      · next info io heq =>
        split at h
        · cases h
        · next rest hrest =>
          have hr := Except.ok.inj h
          obtain ⟨ih1, ih2⟩ := ih rest hrest
          have hio := extractOne_instructor_iff heq
          rw [← hr]
          constructor
          · simp [ih1]
          · cases io with
            | none =>
              have hfalse : hh.classTable.isSome = false := by rw [← hio]; rfl
              simp [List.filter_cons, hfalse, ih2]
            | some ii =>
              have htrue : hh.classTable.isSome = true := by rw [← hio]; rfl
              simp [List.filter_cons, htrue, ih2]
  · intro hh info io h
    exact extractOne_instructor_iff h

/-- The extraction result for a one-listing document. -/
def c1wRes : ExtractResult :=
  ((totalResults [hTableSample]).toOption).getD ⟨[], []⟩

theorem c1_parallel_sequences_amended_witness :
    c1wRes.crnInfo.length = [hTableSample].length ∧
    c1wRes.instructorInfo.length
      = ([hTableSample].filter (fun hh => hh.classTable.isSome)).length :=
  c1_parallel_sequences_amended.1 [hTableSample] c1wRes (by rfl)

/-- C7: the claim is right about the intent but the code throws — when the
literal label or pattern is absent from the detail free text, the extracted
field is not null: the `match(...)[0]` chain of crawl.js lines 118-121 reads
element 0 of a null match result and throws a TypeError, aborting the record,
so the trailing `|| null` is unreachable on a failed match.  A missing
"Levels: " label, a missing " Schedule" pattern, and a missing " Credits"
pattern each abort extraction; only the unparsable half of the credits clause
holds: a matched but non-numeric credits text does yield null. -/
theorem c7_missing_label_throws :
    extractOne ⟨("Painting - 40001 - ART 110 - 1").toList,
        ("Lecture Schedule Type\n3.000 Credits").toList, none⟩
      = Except.error JsError.typeError ∧
    extractOne ⟨("Painting - 40001 - ART 110 - 1").toList,
        ("Levels: Undergraduate\n3.000 Credits").toList, none⟩
      = Except.error JsError.typeError ∧
    extractOne ⟨("Painting - 40001 - ART 110 - 1").toList,
        ("Levels: Undergraduate\nLecture Schedule Type").toList, none⟩
      = Except.error JsError.typeError ∧
    (extractOne ⟨("Painting - 40001 - ART 110 - 1").toList,
        ("Levels: Undergraduate\nLecture Schedule Type\nTBA Credits").toList, none⟩).map
      (fun p => p.1.credits) = Except.ok none :=
  ⟨rfl, rfl, rfl, rfl⟩

/-- A term whose listing page has a header with an empty detail block:
extraction throws on the missing "Levels: " pattern. -/
def badTermInput : TermInput :=
  ⟨[(("General Studies").toList, ("GEN").toList)],
   [⟨("Seminar - 50001 - GEN 100 - 1").toList, [], none⟩]⟩

/-- C8 counterexample: the claim is false as stated — with term discovery
succeeded (two terms to crawl) and a per-term sub-stage failure in the first
term (its extraction throws), the orchestrator does not skip the term and
continue to the next: the run exits with code 1, and no course row — in
particular none from the healthy second term — is ever written. -/
theorem c8_counterexample :
    startCrawlExit emptyDB
      [(("201910").toList, badTermInput), (("202010").toList, inpSample)] = 1 ∧
    (startCrawlLoop emptyDB
      [(("201910").toList, badTermInput), (("202010").toList, inpSample)]).1.crns = [] :=
  ⟨rfl, rfl⟩

/-- C8 (amended): a failure during any per-term sub-stage is not scoped to
that term — the rethrowing catch propagates it, so the whole run terminates
with the same non-zero outcome as a discovery failure: the failing term is
not skipped, no subsequent term is processed (the loop result is independent
of the remaining terms), and the store keeps exactly what was committed
before the failure, preserving the progress of prior terms. -/
theorem c8_failure_propagates_amended (db : DB) (t : JStr) (inp : TermInput)
    (e : JsError) (rest : List (JStr × TermInput))
    (h : (crawl t inp db).2 = Except.error e) :
    startCrawlLoop db ((t, inp) :: rest) = ((crawl t inp db).1, some e) ∧
    startCrawlExit db ((t, inp) :: rest) = 1 := by
  have hc : crawl t inp db = ((crawl t inp db).1, Except.error e) := by
    rw [← h]
  have hloop : startCrawlLoop db ((t, inp) :: rest)
      = ((crawl t inp db).1, some e) := by
    unfold startCrawlLoop
    rw [hc]
  refine ⟨hloop, ?_⟩
  unfold startCrawlExit
  rw [hloop]

theorem c8_failure_propagates_amended_witness :
    startCrawlLoop emptyDB
      [(("201910").toList, badTermInput), (("202010").toList, inpSample)]
      = ((crawl ("201910").toList badTermInput emptyDB).1, some JsError.typeError) ∧
    startCrawlExit emptyDB
      [(("201910").toList, badTermInput), (("202010").toList, inpSample)] = 1 :=
  c8_failure_propagates_amended emptyDB ("201910").toList badTermInput
    JsError.typeError [(("202010").toList, inpSample)] (by rfl)

/-- C10: the claim is right and the code is wrong — crawl.js line 257
increments `newAttributeCount` for each newly inserted Level row, and
`newLevelCount` is never incremented, contradicting the report at line 269
("... new attributes and ... new levels").  Crawling the sample term from an
empty store actually inserts one Level row ("Undergraduate") and zero
Attribute rows, yet the reported statistics say 0 new levels and 1 new
attribute. -/
theorem c10_level_count_misreported :
    (crawl ("201910").toList inpSample emptyDB).2
      = Except.ok ⟨1, 1, 0, 1⟩ ∧
    (crawl ("201910").toList inpSample emptyDB).1.levels
      = [⟨("Undergraduate").toList, ("201910").toList⟩] ∧
    (crawl ("201910").toList inpSample emptyDB).1.attributes = [] :=
  ⟨rfl, rfl, rfl⟩
